import Mathlib

/-!
# Cloud189Checkin: the multi-account run orchestrator of `src/app.js`

A shallow embedding of `doUserTask`, `run`, `main` and the entry point of
`src/app.js`.  The JavaScript program is sequential (every promise is awaited
before the next statement runs), so it is embedded as explicit state passing:

* the external cloud client (`cloud189-sdk`) is an oracle `Env`, indexed by a
  logical clock `tick` that counts the client calls made so far, so that any
  finite pattern of successes and failures is a possible behaviour;
* a thrown JavaScript error is the `error` side of `Except JsError _`;
* the `Map` named `userSizeInfoMap` is an insertion-ordered association list;
* every emitted log entry is appended to `State.events`;
* `State.trace` is ghost state: it records which client calls were issued and
  how each ended, and is read by the theorems only;
* the answer of `getUserSizeInfo` may lack a capacity block, in which case the
  reconciliation loop throws while computing its log line.
-/

namespace Cloud189Checkin

/-! ## Data of the external collaborators -/

/-- One capacity block of `getUserSizeInfo()`: only `totalSize` (bytes) is read. -/
structure CapacityInfo where
  totalSize : Int
deriving DecidableEq, Repr

/-- The value `cloudClient.getUserSizeInfo()` resolves to.  JavaScript does not
check its shape: a capacity block is `none` when the answer lacks it (an
answer that is itself `undefined` lacks both), and reading `totalSize` from a
missing block throws a `TypeError`. -/
structure UserSizeInfo where
  cloudCapacityInfo : Option CapacityInfo
  familyCapacityInfo : Option CapacityInfo
deriving DecidableEq, Repr

/-- The value `cloudClient.userSign()` resolves to. -/
structure SignResult where
  isSign : Bool
  netdiskBonus : Int
deriving DecidableEq, Repr

/-- The `response` object carried by an HTTP failure. -/
structure Response where
  statusCode : Int
  body : String
deriving DecidableEq, Repr

/-- A thrown JavaScript error object: the fields that `run` and `main` read
(`e.response`, `e.code`, `e.message`) and `name`, which `String(e)` shows. -/
structure JsError where
  name : String
  message : String
  code : Option String
  response : Option Response
deriving DecidableEq, Repr

/-- The handle built by `new CloudClient({ username, password, token })`;
`token` is the path given to `new FileTokenStore(...)`. -/
structure CloudClient where
  username : String
  password : String
  token : String
deriving DecidableEq, Repr

/-- One entry of `accounts`. -/
structure Account where
  userName : String
  password : String
deriving DecidableEq, Repr

/-- The levels used by the program: `logger.info`, `logger.log`, `logger.error`. -/
inductive Level where
  | info
  | log
  | error
deriving DecidableEq, Repr

/-- One argument of a logging call: a string, or a thrown error object
(`logger.error(e)`). -/
inductive LogArg where
  | str (s : String)
  | err (e : JsError)
deriving DecidableEq, Repr

/-- The logger of `log4js.getLogger(userName)` after
`addContext("user", userNameInfo)`. -/
structure Logger where
  category : String
  user : String
deriving DecidableEq, Repr

/-- One recorded logging event; `data` holds the arguments of the call. -/
structure LogEvent where
  category : String
  user : String
  level : Level
  data : List LogArg
deriving DecidableEq, Repr

/-- The value stored in `userSizeInfoMap` by `run`. -/
structure Record where
  cloudClient : CloudClient
  userSizeInfo : UserSizeInfo
  logger : Logger
deriving DecidableEq, Repr

/-- Ghost record of the run: the tasks entered past the credential guard of
`run` and the client calls issued, each with the error it failed with
(`none` when it succeeded).  `index` is the loop index of `main`.  `formatted`
records, after a re-query that resolved, whether the capacity line of the
reconciliation loop could be computed from the two answers. -/
inductive Call where
  | start (index : Nat) (userName password : String)
  | construct (index : Nat) (userName : String) (failure : Option JsError)
  | sizeBefore (index : Nat) (userName : String) (failure : Option JsError)
  | userSign (index : Nat) (userName : String) (failure : Option JsError)
  | sizeAfter (userName : String) (failure : Option JsError)
  | formatted (userName : String) (failure : Option JsError)
deriving DecidableEq, Repr

/-- The behaviour of everything outside `src/app.js`.  The first argument of
the three client operations is the logical clock at the call. -/
structure Env where
  /-- The call `new CloudClient(...)` with its `new FileTokenStore(...)`: `some e` when it
  throws `e`. -/
  newCloudClient : Nat → CloudClient → Option JsError
  /-- The call `cloudClient.getUserSizeInfo()`. -/
  getUserSizeInfo : Nat → CloudClient → Except JsError UserSizeInfo
  /-- The call `cloudClient.userSign()`. -/
  userSign : Nat → CloudClient → Except JsError SignResult
  /-- The function `mask` of `./utils`. -/
  mask : String → Nat → Nat → String
  /-- The text of `((Date.now() - before) / 1000).toFixed(2)`, from the clock
  at the start of the task and at its end. -/
  elapsed : Nat → Nat → String
  /-- The function `catLogs` of `./logger`: the text of the log file, from the entries emitted. -/
  catLogs : List LogEvent → String
  /-- The `TypeError` the engine throws when `totalSize` is read from a missing
  capacity block. -/
  typeError : JsError

/-- The mutable state of one run. -/
structure State where
  tick : Nat
  userSizeInfoMap : List (String × Record)
  events : List LogEvent
  trace : List Call

/-- The state at the start of `main`: `new Map()`, nothing logged. -/
def State.init : State :=
  { tick := 0, userSizeInfoMap := [], events := [], trace := [] }

/-- The constant `tokenDir` of the program, `".token"`. -/
def tokenDir : String := ".token"

/-! ## JavaScript primitives -/

/-- The method `Map.prototype.set`: an existing key keeps its position and gets the new
value, a new key is appended. -/
def mapSet (m : List (String × Record)) (k : String) (v : Record) : List (String × Record) :=
  match m with
  | [] => [(k, v)]
  | (k0, v0) :: rest => if k0 = k then (k, v) :: rest else (k0, v0) :: mapSet rest k v

/-- The method `Array.prototype.join(sep)` on strings. -/
def jsJoin (sep : String) : List String → String
  | [] => ""
  | [x] => x
  | x :: y :: rest => x ++ sep ++ jsJoin sep (y :: rest)

/-- The method `Error.prototype.toString`. -/
def JsError.toJsString (e : JsError) : String :=
  if e.name = "" then e.message
  else if e.message = "" then e.name
  else e.name ++ ": " ++ e.message

/-- How `join` renders one logged argument. -/
def LogArg.toJsString : LogArg → String
  | .str s => s
  | .err e => e.toJsString

/-- Two decimal digits of `n % 100`. -/
def twoDigits (n : Nat) : String :=
  toString (n % 100 / 10) ++ toString (n % 10)

/-- The hundredths closest to `|num| / 2 ^ shift`, the larger one on a tie:
the integer `n` of `Number.prototype.toFixed(2)`. -/
def hundredths (num : Int) (shift : Nat) : Nat :=
  (200 * num.natAbs + 2 ^ shift) / 2 ^ (shift + 1)

/-- The text of `(num / 2 ^ shift).toFixed(2)` for an integer `num`: the
program only divides integers (byte counts and their differences, below
`2 ^ 53`) by `1024`, which is exact in binary floating point, and `toFixed`
rounds the exact value, half away from zero, keeping the sign of a negative
value. -/
def toFixed2 (num : Int) (shift : Nat) : String :=
  (if num < 0 then "-" else "") ++
    toString (hundredths num shift / 100) ++ "." ++ twoDigits (hundredths num shift)

/-- A capacity change in MB: `((after - before) / 1024 / 1024).toFixed(2)`. -/
def deltaMB (after before : Int) : String :=
  toFixed2 (after - before) 20

/-- A capacity in GB: `(total / 1024 / 1024 / 1024).toFixed(2)`. -/
def totalGB (total : Int) : String :=
  toFixed2 total 30

/-- Modelled from the spec: the logger collaborator (`./logger`, with the
`recording` appender of log4js) is missing from the sources; per the spec it
keeps "a process-wide in-memory recording of all emitted entries for later
replay", so an emitted entry is appended to the recorded events. -/
def emit (logger : Logger) (level : Level) (data : List LogArg) (s : State) : State :=
  { s with events := s.events ++
      [{ category := logger.category, user := logger.user, level := level, data := data }] }

/-- One client call was issued: the clock advances and the call is recorded. -/
def called (c : Call) (s : State) : State :=
  { s with tick := s.tick + 1, trace := s.trace ++ [c] }

/-- A ghost record that is no client call: the clock stays. -/
def noted (c : Call) (s : State) : State :=
  { s with trace := s.trace ++ [c] }

/-! ## The program -/

/-- The function `doUserTask`: one `userSign` call, then the bonus line. -/
def doUserTask (env : Env) (index : Nat) (cloudClient : CloudClient) (logger : Logger)
    (s : State) : Except JsError Unit × State :=
  match env.userSign s.tick cloudClient with
  | .error e => (.error e, called (.userSign index cloudClient.username (some e)) s)
  | .ok result =>
    let netdiskBonus := if result.isSign then 0 else result.netdiskBonus
    (.ok (), emit logger .info
      [.str ("个人签到任务: 获得 " ++ toString netdiskBonus ++ "M 空间")]
      (called (.userSign index cloudClient.username none) s))

/-- The `try` block of `run`. -/
def runTry (env : Env) (index : Nat) (userName password : String) (logger : Logger)
    (s : State) : Except JsError Unit × State :=
  let s1 := emit logger .log [.str "开始执行"] s
  let cloudClient : CloudClient :=
    { username := userName, password := password,
      token := tokenDir ++ "/" ++ userName ++ ".json" }
  match env.newCloudClient s1.tick cloudClient with
  | some e => (.error e, called (.construct index userName (some e)) s1)
  | none =>
    let s2 := called (.construct index userName none) s1
    match env.getUserSizeInfo s2.tick cloudClient with
    | .error e => (.error e, called (.sizeBefore index userName (some e)) s2)
    | .ok beforeUserSizeInfo =>
      let s3 := called (.sizeBefore index userName none) s2
      let record : Record :=
        { cloudClient := cloudClient, userSizeInfo := beforeUserSizeInfo, logger := logger }
      let s4 := { s3 with userSizeInfoMap := mapSet s3.userSizeInfoMap userName record }
      doUserTask env index cloudClient logger s4

/-- The generic failure entry of the `catch` block of `run`. -/
def genericEntry (logger : Logger) (e : JsError) : LogEvent :=
  match e.response with
  | some r =>
    { category := logger.category, user := logger.user, level := .log,
      data := [.str ("请求失败: " ++ toString r.statusCode ++ ", " ++ r.body)] }
  | none =>
    { category := logger.category, user := logger.user, level := .error, data := [.err e] }

/-- The request-timed-out entry of the `catch` block of `run`. -/
def timeoutEntry (logger : Logger) : LogEvent :=
  { category := logger.category, user := logger.user, level := .error,
    data := [.str "请求超时"] }

/-- The logging of the `catch` block of `run` (the block then re-throws `e`). -/
def runCatch (logger : Logger) (e : JsError) (s : State) : State :=
  let s1 :=
    match e.response with
    | some r => emit logger .log
        [.str ("请求失败: " ++ toString r.statusCode ++ ", " ++ r.body)] s
    | none => emit logger .error [.err e] s
  if e.code = some "ECONNRESET" ∨ e.code = some "ETIMEDOUT" then
    emit logger .error [.str "请求超时"] s1
  else s1

/-- The `finally` block of `run`. -/
def runFinally (env : Env) (before : Nat) (logger : Logger) (s : State) : State :=
  emit logger .log [.str ("执行完毕, 耗时 " ++ env.elapsed before s.tick ++ " 秒")] s

/-- The function `run(userName, password, userSizeInfoMap, logger)`; the map is part of the
state and `index` only labels the ghost trace. -/
def run (env : Env) (index : Nat) (userName password : String) (logger : Logger)
    (s : State) : Except JsError Unit × State :=
  if userName ≠ "" ∧ password ≠ "" then
    let s0 := { s with trace := s.trace ++ [.start index userName password] }
    match runTry env index userName password logger s0 with
    | (.ok u, s1) => (.ok u, runFinally env s.tick logger s1)
    | (.error e, s1) => (.error e, runFinally env s.tick logger (runCatch logger e s1))
  else (.ok (), s)

/-- The body of the first loop of `main` for one account. -/
def taskStep (env : Env) (index : Nat) (account : Account) (acc : Bool × State) :
    Bool × State :=
  let userNameInfo := env.mask account.userName 3 7
  let logger : Logger := { category := account.userName, user := userNameInfo }
  match run env index account.userName account.password logger acc.2 with
  | (.ok _, s1) => (acc.1, s1)
  | (.error e, s1) =>
    (true, emit logger .error
      [.str ("账户 " ++ userNameInfo ++ " 执行失败:"), .str e.message] s1)

/-- The first loop of `main`, from loop index `index`. -/
def taskLoop (env : Env) : Nat → List Account → Bool × State → Bool × State
  | _, [], acc => acc
  | index, account :: rest, acc => taskLoop env (index + 1) rest (taskStep env index account acc)

/-- The two arguments of the `logger.log` call of the second loop of `main`,
computed from the answer of the re-query and the answer stored in the record;
`none` when computing them throws, which is when one of the four capacity
blocks they read is missing. -/
def capacityLines (afterUserSizeInfo userSizeInfo : UserSizeInfo) : Option (List LogArg) :=
  match afterUserSizeInfo.cloudCapacityInfo, userSizeInfo.cloudCapacityInfo,
      afterUserSizeInfo.familyCapacityInfo, userSizeInfo.familyCapacityInfo with
  | some afterCloud, some beforeCloud, some afterFamily, some beforeFamily =>
    some
      [.str ("个人容量：⬆️  " ++ deltaMB afterCloud.totalSize beforeCloud.totalSize ++ "M/" ++
          totalGB afterCloud.totalSize ++ "G"),
       .str ("家庭容量：⬆️  " ++ deltaMB afterFamily.totalSize beforeFamily.totalSize ++ "M/" ++
          totalGB afterFamily.totalSize ++ "G")]
  | _, _, _, _ => none

/-- The body of the second loop of `main` for one entry of the map.  Its `try`
block covers the re-query and the computation of the capacity line, so a
rejected re-query and an answer that cannot be read both reach the `catch`. -/
def reconcileStep (env : Env) (entry : String × Record) (acc : Bool × State) :
    Bool × State :=
  match env.getUserSizeInfo acc.2.tick entry.2.cloudClient with
  | .ok afterUserSizeInfo =>
    let s1 := called (.sizeAfter entry.1 none) acc.2
    match capacityLines afterUserSizeInfo entry.2.userSizeInfo with
    | some lines =>
      (acc.1, emit entry.2.logger .log lines (noted (.formatted entry.1 none) s1))
    | none =>
      (true, emit entry.2.logger .error
        [.str ("获取 " ++ entry.1 ++ " 容量信息失败:"), .str env.typeError.message]
        (noted (.formatted entry.1 (some env.typeError)) s1))
  | .error e =>
    (true, emit entry.2.logger .error
      [.str ("获取 " ++ entry.1 ++ " 容量信息失败:"), .str e.message]
      (called (.sizeAfter entry.1 (some e)) acc.2))

/-- The second loop of `main` over the entries of the map. -/
def reconcileLoop (env : Env) : List (String × Record) → Bool × State → Bool × State
  | [], acc => acc
  | entry :: rest, acc => reconcileLoop env rest (reconcileStep env entry acc)

/-- The task-execution phase of `main`: `hasError = false`, an empty map, then
the first loop. -/
def taskPhase (env : Env) (accounts : List Account) : Bool × State :=
  taskLoop env 0 accounts (false, State.init)

/-- The function `main()`: returns `hasError` (and the final state). -/
def main (env : Env) (accounts : List Account) : Bool × State :=
  reconcileLoop env (taskPhase env accounts).2.userSizeInfoMap (taskPhase env accounts)

/-- What the entry point did: the calls to `push` (subject, body) and the
lines written with `console.log`. -/
structure Outcome where
  pushes : List (String × String)
  console : List String
deriving DecidableEq, Repr

/-- The replayed events as the entry point renders them:
`events.map(e => e.data.join("")).join("  \n")`. -/
def replayContent (events : List LogEvent) : String :=
  jsJoin "  \n" (events.map fun e => jsJoin "" (e.data.map LogArg.toJsString))

/-- The entry point: `main` is total here, so the `finally` block runs with the
flag that `main` returned. -/
def entryPoint (env : Env) (accounts : List Account) : Outcome :=
  let hasError := (main env accounts).1
  let logs := env.catLogs (main env accounts).2.events
  let content := replayContent (main env accounts).2.events
  if hasError then
    { pushes := [("天翼云盘自动签到任务失败", logs ++ content)], console := [] }
  else
    { pushes := [], console := ["所有任务执行成功，不发送通知"] }

/-! ## Reading the ghost trace -/

/-- The error a recorded step failed with; `none` for a success and for the
start of a task. -/
def Call.failure : Call → Option JsError
  | .start _ _ _ => none
  | .construct _ _ f => f
  | .sizeBefore _ _ f => f
  | .userSign _ _ f => f
  | .sizeAfter _ f => f
  | .formatted _ f => f

/-- The account of a `start` record. -/
def Call.started : Call → Option Account
  | .start _ userName password => some { userName := userName, password := password }
  | _ => none

/-- The map key of a reconciliation re-query. -/
def Call.requeried : Call → Option String
  | .sizeAfter userName _ => some userName
  | _ => none

/-- The accounts whose task was started, in the order of the run. -/
def startedAccounts (trace : List Call) : List Account :=
  trace.filterMap Call.started

/-- The keys for which the reconciliation re-query was issued, in order. -/
def requeriedKeys (trace : List Call) : List String :=
  trace.filterMap Call.requeried

/-- The credential guard of `run`: `userName && password`. -/
def Account.usable (a : Account) : Bool :=
  decide (a.userName ≠ "" ∧ a.password ≠ "")

/-- The entries the `catch` block of `run` logs for `e`: the generic failure
entry, then the request-timed-out entry when `e.code` is `ECONNRESET` or
`ETIMEDOUT`. -/
def catchEntries (logger : Logger) (e : JsError) : List LogEvent :=
  genericEntry logger e ::
    (if e.code = some "ECONNRESET" ∨ e.code = some "ETIMEDOUT" then [timeoutEntry logger] else [])

/-- The entry the `catch` block of the first loop of `main` logs for the
account `userName` whose task threw `e`. -/
def failureEntry (env : Env) (userName : String) (e : JsError) : LogEvent :=
  { category := userName, user := env.mask userName 3 7, level := .error,
    data := [.str ("账户 " ++ env.mask userName 3 7 ++ " 执行失败:"), .str e.message] }

/-- The text of `failureEntry` in the notification body: its arguments joined
by the empty string. -/
def failureLine (env : Env) (userName : String) (e : JsError) : String :=
  "账户 " ++ env.mask userName 3 7 ++ " 执行失败:" ++ e.message

/-- The entry logged when the `try` block of `run` is entered. -/
def startEntry (logger : Logger) : LogEvent :=
  { category := logger.category, user := logger.user, level := .log,
    data := [.str "开始执行"] }

/-- The entry logged by the `finally` block of `run`. -/
def finallyEntry (env : Env) (logger : Logger) (before after : Nat) : LogEvent :=
  { category := logger.category, user := logger.user, level := .log,
    data := [.str ("执行完毕, 耗时 " ++ env.elapsed before after ++ " 秒")] }

/-- The logger `main` gives to the task of an account. -/
def Account.logger (env : Env) (a : Account) : Logger :=
  { category := a.userName, user := env.mask a.userName 3 7 }

/-! ## Sample runs -/

/-- A connection time-out as the HTTP layer of the client reports it. -/
def timedOut : JsError :=
  { name := "RequestError", message := "connect ETIMEDOUT", code := some "ETIMEDOUT",
    response := none }

/-- A rejected login, reported with an HTTP response. -/
def rejected : JsError :=
  { name := "HTTPError", message := "Response code 400 (Bad Request)", code := none,
    response := some { statusCode := 400, body := "bad credentials" } }

/-- A failure to prepare the token store of a client. -/
def storeFailure : JsError :=
  { name := "Error", message := "EACCES: permission denied", code := some "EACCES",
    response := none }

/-- A capacity answer with the given personal and family totals. -/
def sizeInfo (personal family : Int) : UserSizeInfo :=
  { cloudCapacityInfo := some { totalSize := personal },
    familyCapacityInfo := some { totalSize := family } }

/-- The error of reading a property of `undefined`. -/
def undefinedRead : JsError :=
  { name := "TypeError", message := "Cannot read properties of undefined", code := none,
    response := none }

/-- A sample `mask`: the characters at positions `first ≤ i < last` become `*`. -/
def starMask (s : String) (first last : Nat) : String :=
  String.mk (s.data.enum.map fun (i, c) => if first ≤ i ∧ i < last then '*' else c)

/-- Two accounts, A and B. -/
def accountsAB : List Account :=
  [{ userName := "18900000001", password := "pwA" },
   { userName := "18900000002", password := "pwB" }]

/-- The same identifier twice, the second time with a wrong password. -/
def accountsRepeated : List Account :=
  [{ userName := "18900000001", password := "pwA" },
   { userName := "18900000001", password := "wrong" }]

/-- A client that works for every account, except that the sign-in of account
B times out. -/
def envSignInTimeout : Env :=
  { newCloudClient := fun _ _ => none
    getUserSizeInfo := fun _ _ => .ok (sizeInfo 1073741824 2147483648)
    userSign := fun _ c =>
      if c.username = "18900000002" then .error timedOut
      else .ok { isSign := false, netdiskBonus := 50 }
    mask := starMask
    elapsed := fun _ _ => "0.10"
    catLogs := fun _ => ""
    typeError := undefinedRead }

/-- A client whose every sign-in and capacity query succeeds, but whose
construction throws for account B. -/
def envConstructFails : Env :=
  { newCloudClient := fun _ c => if c.username = "18900000002" then some storeFailure else none
    getUserSizeInfo := fun _ _ => .ok (sizeInfo 1073741824 2147483648)
    userSign := fun _ _ => .ok { isSign := false, netdiskBonus := 50 }
    mask := starMask
    elapsed := fun _ _ => "0.10"
    catLogs := fun _ => ""
    typeError := undefinedRead }

/-- A client whose capacity query is rejected for the password `wrong`. -/
def envWrongPassword : Env :=
  { newCloudClient := fun _ _ => none
    getUserSizeInfo := fun _ c =>
      if c.password = "wrong" then .error rejected else .ok (sizeInfo 1073741824 2147483648)
    userSign := fun _ _ => .ok { isSign := true, netdiskBonus := 0 }
    mask := starMask
    elapsed := fun _ _ => "0.10"
    catLogs := fun _ => ""
    typeError := undefinedRead }

/-- A client whose capacity answer shows the personal total grown by 262144 bytes. -/
def envGrown : Env :=
  { newCloudClient := fun _ _ => none
    getUserSizeInfo := fun _ _ => .ok (sizeInfo 1074003968 2147483648)
    userSign := fun _ _ => .ok { isSign := false, netdiskBonus := 50 }
    mask := starMask
    elapsed := fun _ _ => "0.10"
    catLogs := fun _ => ""
    typeError := undefinedRead }

/-- Whether a recorded call is a sign-in call or a capacity query (the
pre-task query of `run` or the re-query of the reconciliation loop). -/
def Call.isSignInOrQuery : Call → Bool
  | .sizeBefore _ _ _ => true
  | .userSign _ _ _ => true
  | .sizeAfter _ _ => true
  | _ => false

/-- The identifiers whose sign-in call succeeded. -/
def signedIn (trace : List Call) : List String :=
  trace.filterMap fun c =>
    match c with
    | .userSign _ userName none => some userName
    | _ => none

/-- The keys of `userSizeInfoMap`, in insertion order. -/
def mapKeys (m : List (String × Record)) : List String :=
  m.map Prod.fst

/-- The loop index of `main` at which a call was recorded (none for the
records of the reconciliation loop). -/
def Call.index : Call → Option Nat
  | .start i _ _ => some i
  | .construct i _ _ => some i
  | .sizeBefore i _ _ => some i
  | .userSign i _ _ => some i
  | .sizeAfter _ _ => none
  | .formatted _ _ => none

/-- Whether a recorded call is a client construction or a pre-task capacity
query of loop index `i` that threw. -/
def Call.failsBefore (i : Nat) : Call → Bool
  | .construct j _ (some _) => j == i
  | .sizeBefore j _ (some _) => j == i
  | _ => false

/-- The list entry at loop index `i` failed before its pre-task capacity query
succeeded: its client construction or that query threw. -/
def failedBefore (trace : List Call) (i : Nat) : Bool :=
  trace.any (Call.failsBefore i)

/-- Whether a record is the `formatted` record of the reconciliation loop. -/
def Call.isFormatted : Call → Bool
  | .formatted _ _ => true
  | _ => false

/-- A capacity answer that lacks the personal capacity block. -/
def noCloudBlock : UserSizeInfo :=
  { cloudCapacityInfo := none, familyCapacityInfo := some { totalSize := 2147483648 } }

/-- A client whose every call resolves, but whose re-query for account B (made
after the two tasks, from clock 6 on) resolves to an answer without the
personal capacity block. -/
def envUnreadableRequery : Env :=
  { newCloudClient := fun _ _ => none
    getUserSizeInfo := fun t c =>
      if 6 ≤ t ∧ c.username = "18900000002" then .ok noCloudBlock
      else .ok (sizeInfo 1073741824 2147483648)
    userSign := fun _ _ => .ok { isSign := false, netdiskBonus := 50 }
    mask := starMask
    elapsed := fun _ _ => "0.10"
    catLogs := fun _ => ""
    typeError := undefinedRead }

/-! ## Basic facts about the state operations -/

@[simp] theorem emit_tick (l : Logger) (lv : Level) (d : List LogArg) (s : State) :
    (emit l lv d s).tick = s.tick := rfl

@[simp] theorem emit_map (l : Logger) (lv : Level) (d : List LogArg) (s : State) :
    (emit l lv d s).userSizeInfoMap = s.userSizeInfoMap := rfl

@[simp] theorem emit_trace (l : Logger) (lv : Level) (d : List LogArg) (s : State) :
    (emit l lv d s).trace = s.trace := rfl

@[simp] theorem emit_events (l : Logger) (lv : Level) (d : List LogArg) (s : State) :
    (emit l lv d s).events =
      s.events ++ [{ category := l.category, user := l.user, level := lv, data := d }] := rfl

@[simp] theorem called_tick (c : Call) (s : State) : (called c s).tick = s.tick + 1 := rfl

@[simp] theorem called_map (c : Call) (s : State) :
    (called c s).userSizeInfoMap = s.userSizeInfoMap := rfl

@[simp] theorem called_trace (c : Call) (s : State) : (called c s).trace = s.trace ++ [c] := rfl

@[simp] theorem called_events (c : Call) (s : State) : (called c s).events = s.events := rfl

@[simp] theorem noted_tick (c : Call) (s : State) : (noted c s).tick = s.tick := rfl

@[simp] theorem noted_map (c : Call) (s : State) :
    (noted c s).userSizeInfoMap = s.userSizeInfoMap := rfl

@[simp] theorem noted_trace (c : Call) (s : State) : (noted c s).trace = s.trace ++ [c] := rfl

@[simp] theorem noted_events (c : Call) (s : State) : (noted c s).events = s.events := rfl

/-- The state in which the client calls of a task start: the start entry is logged. -/
theorem runTry_cases (env : Env) (i : Nat) (u p : String) (l : Logger) (s : State) :
    (∃ e, runTry env i u p l s = (.error e,
        { tick := s.tick + 1, userSizeInfoMap := s.userSizeInfoMap,
          events := s.events ++ [⟨l.category, l.user, .log, [.str "开始执行"]⟩],
          trace := s.trace ++ [.construct i u (some e)] })) ∨
    (∃ e, runTry env i u p l s = (.error e,
        { tick := s.tick + 2, userSizeInfoMap := s.userSizeInfoMap,
          events := s.events ++ [⟨l.category, l.user, .log, [.str "开始执行"]⟩],
          trace := s.trace ++ [.construct i u none, .sizeBefore i u (some e)] })) ∨
    (∃ e r, runTry env i u p l s = (.error e,
        { tick := s.tick + 3, userSizeInfoMap := mapSet s.userSizeInfoMap u r,
          events := s.events ++ [⟨l.category, l.user, .log, [.str "开始执行"]⟩],
          trace := s.trace ++
            [.construct i u none, .sizeBefore i u none, .userSign i u (some e)] })) ∨
    (∃ r line, runTry env i u p l s = (.ok (),
        { tick := s.tick + 3, userSizeInfoMap := mapSet s.userSizeInfoMap u r,
          events := s.events ++ [⟨l.category, l.user, .log, [.str "开始执行"]⟩,
            ⟨l.category, l.user, .info, [.str line]⟩],
          trace := s.trace ++
            [.construct i u none, .sizeBefore i u none, .userSign i u none] })) := by
  unfold runTry doUserTask
  simp only [emit_tick, called_tick]
  cases h1 : env.newCloudClient s.tick ⟨u, p, tokenDir ++ "/" ++ u ++ ".json"⟩ with
  | some e => exact Or.inl ⟨e, by simp [emit, called]⟩
  | none =>
    cases h2 : env.getUserSizeInfo (s.tick + 1) ⟨u, p, tokenDir ++ "/" ++ u ++ ".json"⟩ with
    | error e => exact Or.inr (Or.inl ⟨e, by simp [emit, called]⟩)
    | ok info =>
      cases h3 : env.userSign (s.tick + 1 + 1) ⟨u, p, tokenDir ++ "/" ++ u ++ ".json"⟩ with
      | error e => exact Or.inr (Or.inr (Or.inl ⟨e, _, by simp [emit, called]; rfl⟩))
      | ok r => exact Or.inr (Or.inr (Or.inr ⟨_, _, by simp [emit, called]; exact ⟨rfl, rfl⟩⟩))

@[simp] theorem runCatch_tick (l : Logger) (e : JsError) (s : State) :
    (runCatch l e s).tick = s.tick := by
  unfold runCatch; cases e.response <;> simp <;> split <;> simp

@[simp] theorem runCatch_map (l : Logger) (e : JsError) (s : State) :
    (runCatch l e s).userSizeInfoMap = s.userSizeInfoMap := by
  unfold runCatch; cases e.response <;> simp <;> split <;> simp

@[simp] theorem runCatch_trace (l : Logger) (e : JsError) (s : State) :
    (runCatch l e s).trace = s.trace := by
  unfold runCatch; cases e.response <;> simp <;> split <;> simp

theorem runCatch_events (l : Logger) (e : JsError) (s : State) :
    (runCatch l e s).events = s.events ++ catchEntries l e := by
  unfold runCatch catchEntries genericEntry timeoutEntry
  cases e.response <;> simp <;> split <;> simp

/-- The effect of one iteration of the first loop of `main`, by the place at
which the task ended. -/
theorem taskStep_cases (env : Env) (i : Nat) (a : Account) (acc : Bool × State) :
    (a.usable = false ∧ taskStep env i a acc = acc) ∨
    (a.usable = true ∧ ∃ e d,
      (taskStep env i a acc).1 = true ∧
      (taskStep env i a acc).2.userSizeInfoMap = acc.2.userSizeInfoMap ∧
      (taskStep env i a acc).2.trace = acc.2.trace ++
        [.start i a.userName a.password, .construct i a.userName (some e)] ∧
      (taskStep env i a acc).2.events = acc.2.events ++ d ++ [failureEntry env a.userName e]) ∨
    (a.usable = true ∧ ∃ e d,
      (taskStep env i a acc).1 = true ∧
      (taskStep env i a acc).2.userSizeInfoMap = acc.2.userSizeInfoMap ∧
      (taskStep env i a acc).2.trace = acc.2.trace ++
        [.start i a.userName a.password, .construct i a.userName none,
          .sizeBefore i a.userName (some e)] ∧
      (taskStep env i a acc).2.events = acc.2.events ++ d ++ [failureEntry env a.userName e]) ∨
    (a.usable = true ∧ ∃ e r d,
      (taskStep env i a acc).1 = true ∧
      (taskStep env i a acc).2.userSizeInfoMap = mapSet acc.2.userSizeInfoMap a.userName r ∧
      (taskStep env i a acc).2.trace = acc.2.trace ++
        [.start i a.userName a.password, .construct i a.userName none,
          .sizeBefore i a.userName none, .userSign i a.userName (some e)] ∧
      (taskStep env i a acc).2.events = acc.2.events ++ d ++ [failureEntry env a.userName e]) ∨
    (a.usable = true ∧ ∃ r d,
      (taskStep env i a acc).1 = acc.1 ∧
      (taskStep env i a acc).2.userSizeInfoMap = mapSet acc.2.userSizeInfoMap a.userName r ∧
      (taskStep env i a acc).2.trace = acc.2.trace ++
        [.start i a.userName a.password, .construct i a.userName none,
          .sizeBefore i a.userName none, .userSign i a.userName none] ∧
      (taskStep env i a acc).2.events = acc.2.events ++ d) := by
  by_cases hg : a.userName ≠ "" ∧ a.password ≠ ""
  · have hu : a.usable = true := by simp [Account.usable, hg]
    right
    rcases runTry_cases env i a.userName a.password (a.logger env)
        { acc.2 with trace := acc.2.trace ++ [.start i a.userName a.password] }
      with ⟨e, h⟩ | ⟨e, h⟩ | ⟨e, r, h⟩ | ⟨r, line, h⟩
    · left
      refine ⟨hu, e, startEntry (a.logger env) :: (catchEntries (a.logger env) e ++
        [finallyEntry env (a.logger env) acc.2.tick (acc.2.tick + 1)]), ?_⟩
      simp [Account.logger] at h
      simp [taskStep, run, hg, h, runFinally, runCatch_events, failureEntry, startEntry,
        finallyEntry, Account.logger]
    · right; left
      refine ⟨hu, e, startEntry (a.logger env) :: (catchEntries (a.logger env) e ++
        [finallyEntry env (a.logger env) acc.2.tick (acc.2.tick + 2)]), ?_⟩
      simp [Account.logger] at h
      simp [taskStep, run, hg, h, runFinally, runCatch_events, failureEntry, startEntry,
        finallyEntry, Account.logger]
    · right; right; left
      refine ⟨hu, e, r, startEntry (a.logger env) :: (catchEntries (a.logger env) e ++
        [finallyEntry env (a.logger env) acc.2.tick (acc.2.tick + 3)]), ?_⟩
      simp [Account.logger] at h
      simp [taskStep, run, hg, h, runFinally, runCatch_events, failureEntry, startEntry,
        finallyEntry, Account.logger]
    · right; right; right
      refine ⟨hu, r, [startEntry (a.logger env),
        ⟨a.userName, env.mask a.userName 3 7, .info, [.str line]⟩,
        finallyEntry env (a.logger env) acc.2.tick (acc.2.tick + 3)], ?_⟩
      simp [Account.logger] at h
      simp [taskStep, run, hg, h, runFinally, startEntry, finallyEntry, Account.logger]
  · left
    constructor
    · simpa [Account.usable] using hg
    · simp [taskStep, run, hg]

/-- The effect of one iteration of the second loop of `main`: the line is
logged, or the re-query is rejected, or an answer cannot be read. -/
theorem reconcileStep_cases (env : Env) (entry : String × Record) (acc : Bool × State) :
    (∃ d,
      (reconcileStep env entry acc).1 = acc.1 ∧
      (reconcileStep env entry acc).2.userSizeInfoMap = acc.2.userSizeInfoMap ∧
      (reconcileStep env entry acc).2.trace = acc.2.trace ++
        [.sizeAfter entry.1 none, .formatted entry.1 none] ∧
      (reconcileStep env entry acc).2.events = acc.2.events ++ d) ∨
    (∃ e d,
      (reconcileStep env entry acc).1 = true ∧
      (reconcileStep env entry acc).2.userSizeInfoMap = acc.2.userSizeInfoMap ∧
      (reconcileStep env entry acc).2.trace = acc.2.trace ++ [.sizeAfter entry.1 (some e)] ∧
      (reconcileStep env entry acc).2.events = acc.2.events ++ d) ∨
    (∃ e d,
      (reconcileStep env entry acc).1 = true ∧
      (reconcileStep env entry acc).2.userSizeInfoMap = acc.2.userSizeInfoMap ∧
      (reconcileStep env entry acc).2.trace = acc.2.trace ++
        [.sizeAfter entry.1 none, .formatted entry.1 (some e)] ∧
      (reconcileStep env entry acc).2.events = acc.2.events ++ d) := by
  unfold reconcileStep
  cases env.getUserSizeInfo acc.2.tick entry.2.cloudClient with
  | ok info =>
    cases h : capacityLines info entry.2.userSizeInfo with
    | some lines => exact Or.inl ⟨_, by simp [h]; rfl⟩
    | none => exact Or.inr (Or.inr ⟨_, _, by simp [h]; exact ⟨rfl, rfl⟩⟩)
  | error e => exact Or.inr (Or.inl ⟨e, _, by simp; rfl⟩)

theorem taskLoop_append (env : Env) (pre post : List Account) (i : Nat) (acc : Bool × State) :
    taskLoop env i (pre ++ post) acc =
      taskLoop env (i + pre.length) post (taskLoop env i pre acc) := by
  induction pre generalizing i acc with
  | nil => simp [taskLoop]
  | cons a rest ih =>
    show taskLoop env (i + 1) (rest ++ post) (taskStep env i a acc) = _
    rw [ih]
    simp only [taskLoop, List.length_cons]
    congr 1
    omega

theorem reconcileLoop_append (env : Env) (pre post : List (String × Record))
    (acc : Bool × State) :
    reconcileLoop env (pre ++ post) acc = reconcileLoop env post (reconcileLoop env pre acc) := by
  induction pre generalizing acc with
  | nil => simp [reconcileLoop]
  | cons a rest ih =>
    show reconcileLoop env (rest ++ post) (reconcileStep env a acc) = _
    rw [ih]
    simp only [reconcileLoop]

theorem taskStep_true (env : Env) (i : Nat) (a : Account) (s : State) :
    (taskStep env i a (true, s)).1 = true := by
  rcases taskStep_cases env i a (true, s) with
    ⟨_, h⟩ | ⟨_, _, _, h, _⟩ | ⟨_, _, _, h, _⟩ | ⟨_, _, _, _, h, _⟩ | ⟨_, _, _, h, _⟩
  · rw [h]
  · exact h
  · exact h
  · exact h
  · exact h

theorem reconcileStep_true (env : Env) (entry : String × Record) (s : State) :
    (reconcileStep env entry (true, s)).1 = true := by
  rcases reconcileStep_cases env entry (true, s) with
    ⟨_, h, _⟩ | ⟨_, _, h, _⟩ | ⟨_, _, h, _⟩
  · exact h
  · exact h
  · exact h

theorem taskLoop_true (env : Env) (as : List Account) (i : Nat) (acc : Bool × State)
    (h : acc.1 = true) : (taskLoop env i as acc).1 = true := by
  induction as generalizing i acc with
  | nil => simpa [taskLoop] using h
  | cons a rest ih =>
    simp only [taskLoop]
    apply ih
    obtain ⟨b, s⟩ := acc
    simp only at h
    subst h
    exact taskStep_true env i a s

theorem reconcileLoop_true (env : Env) (es : List (String × Record)) (acc : Bool × State)
    (h : acc.1 = true) : (reconcileLoop env es acc).1 = true := by
  induction es generalizing acc with
  | nil => simpa [reconcileLoop] using h
  | cons a rest ih =>
    simp only [reconcileLoop]
    apply ih
    obtain ⟨b, s⟩ := acc
    simp only at h
    subst h
    exact reconcileStep_true env a s

theorem taskLoop_started (env : Env) (as : List Account) (i : Nat) (acc : Bool × State) :
    startedAccounts (taskLoop env i as acc).2.trace =
      startedAccounts acc.2.trace ++ as.filter Account.usable := by
  induction as generalizing i acc with
  | nil => simp [taskLoop]
  | cons a rest ih =>
    simp only [taskLoop]
    rw [ih]
    rcases taskStep_cases env i a acc with
      ⟨hu, h⟩ | ⟨hu, _, _, _, _, h, _⟩ | ⟨hu, _, _, _, _, h, _⟩ | ⟨hu, _, _, _, _, _, h, _⟩ |
      ⟨hu, _, _, _, _, h, _⟩
    · simp [h, hu]
    all_goals simp [h, hu, startedAccounts, List.filterMap_append, Call.started]

theorem taskLoop_requeried (env : Env) (as : List Account) (i : Nat) (acc : Bool × State) :
    requeriedKeys (taskLoop env i as acc).2.trace = requeriedKeys acc.2.trace := by
  induction as generalizing i acc with
  | nil => simp [taskLoop]
  | cons a rest ih =>
    simp only [taskLoop]
    rw [ih]
    rcases taskStep_cases env i a acc with
      ⟨hu, h⟩ | ⟨hu, _, _, _, _, h, _⟩ | ⟨hu, _, _, _, _, h, _⟩ | ⟨hu, _, _, _, _, _, h, _⟩ |
      ⟨hu, _, _, _, _, h, _⟩
    · simp [h]
    all_goals simp [h, requeriedKeys, List.filterMap_append, Call.requeried]

theorem reconcileLoop_started (env : Env) (es : List (String × Record)) (acc : Bool × State) :
    startedAccounts (reconcileLoop env es acc).2.trace = startedAccounts acc.2.trace := by
  induction es generalizing acc with
  | nil => simp [reconcileLoop]
  | cons a rest ih =>
    simp only [reconcileLoop]
    rw [ih]
    rcases reconcileStep_cases env a acc with
      ⟨_, _, _, h, _⟩ | ⟨_, _, _, _, h, _⟩ | ⟨_, _, _, _, h, _⟩
    all_goals simp [h, startedAccounts, List.filterMap_append, Call.started]

theorem reconcileLoop_requeried (env : Env) (es : List (String × Record))
    (acc : Bool × State) :
    requeriedKeys (reconcileLoop env es acc).2.trace =
      requeriedKeys acc.2.trace ++ es.map Prod.fst := by
  induction es generalizing acc with
  | nil => simp [reconcileLoop]
  | cons a rest ih =>
    simp only [reconcileLoop]
    rw [ih]
    rcases reconcileStep_cases env a acc with
      ⟨_, _, _, h, _⟩ | ⟨_, _, _, _, h, _⟩ | ⟨_, _, _, _, h, _⟩
    all_goals simp [h, requeriedKeys, List.filterMap_append, Call.requeried]

/-! ## The claims -/

/-- C3: one account's task failure never aborts the run.  For every credential
list and every behaviour of the client, the accounts whose task `main` starts
(`run` entered past its credential guard) are exactly the input credentials
with a non-empty `userName` and `password`, in input order. -/
theorem main_starts_every_usable_account (env : Env) (accounts : List Account) :
    startedAccounts (main env accounts).2.trace = accounts.filter Account.usable := by
  unfold main
  rw [reconcileLoop_started]
  unfold taskPhase
  rw [taskLoop_started]
  simp [State.init, startedAccounts]

/-- C4: reconciliation is attempted for every record of `userSizeInfoMap`.  The
keys for which `main` issues the capacity re-query are exactly the keys present
in the map at the end of the task-execution phase, in the order of the map,
for every behaviour of the client (whatever failed before or in between). -/
theorem main_requeries_every_record (env : Env) (accounts : List Account) :
    requeriedKeys (main env accounts).2.trace =
      mapKeys (taskPhase env accounts).2.userSizeInfoMap := by
  unfold main
  rw [reconcileLoop_requeried]
  unfold taskPhase
  rw [taskLoop_requeried]
  simp [State.init, requeriedKeys, mapKeys]

/-- C5: for every credential with an empty `userName` or an empty `password`,
`run` returns without failing and leaves the whole state as it was (no client
call, no record in `userSizeInfoMap`, nothing logged), and the iteration of
`main` for that entry leaves `hasError` as it was. -/
theorem run_skips_empty_credential (env : Env) (i : Nat) (u p : String) (l : Logger)
    (s : State) (h : u = "" ∨ p = "") :
    run env i u p l s = (.ok (), s) ∧
      ∀ hasError : Bool,
        taskStep env i { userName := u, password := p } (hasError, s) = (hasError, s) := by
  have hg : ¬ (u ≠ "" ∧ p ≠ "") := by
    rcases h with h | h <;> simp [h]
  exact ⟨by simp [run, hg], fun b => by simp [taskStep, run, hg]⟩

/-- Witness of C5: an entry with an empty `userName`. -/
theorem run_skips_empty_credential_witness :
    ("" = "" ∨ "pwA" = "") ∧
      (run envSignInTimeout 0 "" "pwA" ⟨"", ""⟩ State.init = (.ok (), State.init) ∧
        ∀ hasError : Bool,
          taskStep envSignInTimeout 0 { userName := "", password := "pwA" }
            (hasError, State.init) = (hasError, State.init)) :=
  ⟨Or.inl rfl, run_skips_empty_credential envSignInTimeout 0 "" "pwA" ⟨"", ""⟩ State.init
    (Or.inl rfl)⟩

/-- C9: `hasError` is monotonic within one run of `main`.  It starts `false`;
an iteration of either loop entered with `hasError = true` leaves it `true`;
and if it is `true` after any prefix of the task-execution loop or after any
prefix of the reconciliation loop, `main` returns `true`. -/
theorem hasError_monotone (env : Env) (accounts : List Account) :
    (taskLoop env 0 [] (false, State.init)).1 = false ∧
    (∀ i a s, (taskStep env i a (true, s)).1 = true) ∧
    (∀ entry s, (reconcileStep env entry (true, s)).1 = true) ∧
    (∀ pre post, accounts = pre ++ post →
      (taskLoop env 0 pre (false, State.init)).1 = true → (main env accounts).1 = true) ∧
    (∀ pre post, (taskPhase env accounts).2.userSizeInfoMap = pre ++ post →
      (reconcileLoop env pre (taskPhase env accounts)).1 = true →
        (main env accounts).1 = true) := by
  refine ⟨rfl, taskStep_true env, reconcileStep_true env, ?_, ?_⟩
  · intro pre post hsplit h
    unfold main
    apply reconcileLoop_true
    unfold taskPhase
    rw [hsplit, taskLoop_append]
    exact taskLoop_true env post _ _ h
  · intro pre post hsplit h
    unfold main
    rw [hsplit, reconcileLoop_append]
    exact reconcileLoop_true env post _ h

/-- Witness of C9: in the run of accounts A and B where the sign-in of B times
out, `hasError` is `true` after the task loop and `main` returns `true`. -/
theorem hasError_monotone_witness :
    (taskLoop envSignInTimeout 0 accountsAB (false, State.init)).1 = true ∧
      (main envSignInTimeout accountsAB).1 = true :=
  ⟨by decide,
    (hasError_monotone envSignInTimeout accountsAB).2.2.2.1 accountsAB [] (by simp) (by decide)⟩

/-- C8, as stated, fails: for `before = 1073741824` and `after = 1074003968`
the reconciliation pass renders the personal delta as `0.25`, not `256.00`
(262144 bytes are 256 KB, a quarter of a MB). -/
theorem capacity_delta_not_256 :
    deltaMB 1074003968 1073741824 = "0.25" ∧ deltaMB 1074003968 1073741824 ≠ "256.00" := by
  decide

/-- C8, amended: given `before = {personal: 1073741824, family: 2147483648}`
and `after = {personal: 1074003968, family: 2147483648}`, the reconciliation
pass computes a personal delta of `0.25` MB and a family delta of `0.00` MB,
and logs them with the totals `1.00` GB and `2.00` GB. -/
theorem reconcile_logs_capacity_delta (env : Env) (k : String) (c : CloudClient) (l : Logger)
    (acc : Bool × State)
    (h : env.getUserSizeInfo acc.2.tick c = .ok (sizeInfo 1074003968 2147483648)) :
    deltaMB 1074003968 1073741824 = "0.25" ∧ deltaMB 2147483648 2147483648 = "0.00" ∧
      (reconcileStep env (k, ⟨c, sizeInfo 1073741824 2147483648, l⟩) acc).2.events =
        acc.2.events ++ [⟨l.category, l.user, .log,
          [.str "个人容量：⬆️  0.25M/1.00G", .str "家庭容量：⬆️  0.00M/2.00G"]⟩] := by
  refine ⟨by decide, by decide, ?_⟩
  have h1 : "个人容量：⬆️  " ++ deltaMB 1074003968 1073741824 ++ "M/" ++ totalGB 1074003968 ++ "G"
      = "个人容量：⬆️  0.25M/1.00G" := by decide
  have h2 : "家庭容量：⬆️  " ++ deltaMB 2147483648 2147483648 ++ "M/" ++ totalGB 2147483648 ++ "G"
      = "家庭容量：⬆️  0.00M/2.00G" := by decide
  simp only [reconcileStep, h, sizeInfo, capacityLines, emit_events, called_events,
    noted_events, h1, h2]

/-- Witness of the amended C8: the record of account A re-queried by a client
that reports the grown total. -/
theorem reconcile_logs_capacity_delta_witness :
    envGrown.getUserSizeInfo (false, State.init).2.tick ⟨"18900000001", "pwA", ""⟩ =
        .ok (sizeInfo 1074003968 2147483648) ∧
      (deltaMB 1074003968 1073741824 = "0.25" ∧ deltaMB 2147483648 2147483648 = "0.00" ∧
        (reconcileStep envGrown ("18900000001",
            ⟨⟨"18900000001", "pwA", ""⟩, sizeInfo 1073741824 2147483648, ⟨"18900000001", "x"⟩⟩)
            (false, State.init)).2.events =
          (false, State.init).2.events ++ [⟨"18900000001", "x", .log,
            [.str "个人容量：⬆️  0.25M/1.00G", .str "家庭容量：⬆️  0.00M/2.00G"]⟩]) :=
  ⟨rfl, reconcile_logs_capacity_delta envGrown "18900000001" ⟨"18900000001", "pwA", ""⟩
    ⟨"18900000001", "x"⟩ (false, State.init) rfl⟩

/-- C10: when the `try` block of `run` (client construction, pre-task capacity
query or sign-in) raises an error whose code is `ECONNRESET` or `ETIMEDOUT`,
`run` re-throws that error to its caller, and the entries the account's logger
receives are the start entry, the generic failure entry (the status-code-and-body
line when the error carries a response, the error-level entry of the error
otherwise), the request-timed-out entry and the elapsed-time entry. -/
theorem run_logs_timeout_and_rethrows (env : Env) (i : Nat) (u p : String) (l : Logger)
    (s : State) (e : JsError) (hg : u ≠ "" ∧ p ≠ "")
    (hraise : (runTry env i u p l { s with trace := s.trace ++ [.start i u p] }).1 = .error e)
    (hcode : e.code = some "ECONNRESET" ∨ e.code = some "ETIMEDOUT") :
    (run env i u p l s).1 = .error e ∧
      ∃ after, (run env i u p l s).2.events = s.events ++
        [startEntry l, genericEntry l e, timeoutEntry l, finallyEntry env l s.tick after] := by
  rcases runTry_cases env i u p l { s with trace := s.trace ++ [.start i u p] }
    with ⟨e1, h⟩ | ⟨e1, h⟩ | ⟨e1, r, h⟩ | ⟨r, line, h⟩
  · rw [h] at hraise
    simp only [Except.error.injEq] at hraise
    subst hraise
    exact ⟨by simp [run, hg, h], s.tick + 1, by
      simp [run, hg, h, runFinally, runCatch_events, catchEntries, hcode, startEntry,
        finallyEntry]⟩
  · rw [h] at hraise
    simp only [Except.error.injEq] at hraise
    subst hraise
    exact ⟨by simp [run, hg, h], s.tick + 2, by
      simp [run, hg, h, runFinally, runCatch_events, catchEntries, hcode, startEntry,
        finallyEntry]⟩
  · rw [h] at hraise
    simp only [Except.error.injEq] at hraise
    subst hraise
    exact ⟨by simp [run, hg, h], s.tick + 3, by
      simp [run, hg, h, runFinally, runCatch_events, catchEntries, hcode, startEntry,
        finallyEntry]⟩
  · rw [h] at hraise
    simp at hraise

/-- Witness of C10: the sign-in of account B times out. -/
theorem run_logs_timeout_and_rethrows_witness :
    ("18900000002" ≠ "" ∧ "pwB" ≠ "") ∧
      (runTry envSignInTimeout 1 "18900000002" "pwB" ⟨"18900000002", "189****0002"⟩
        { State.init with
          trace := State.init.trace ++ [.start 1 "18900000002" "pwB"] }).1 = .error timedOut ∧
      (timedOut.code = some "ECONNRESET" ∨ timedOut.code = some "ETIMEDOUT") ∧
      ((run envSignInTimeout 1 "18900000002" "pwB" ⟨"18900000002", "189****0002"⟩
          State.init).1 = .error timedOut ∧
        ∃ after, (run envSignInTimeout 1 "18900000002" "pwB" ⟨"18900000002", "189****0002"⟩
            State.init).2.events = State.init.events ++
          [startEntry ⟨"18900000002", "189****0002"⟩,
            genericEntry ⟨"18900000002", "189****0002"⟩ timedOut,
            timeoutEntry ⟨"18900000002", "189****0002"⟩,
            finallyEntry envSignInTimeout ⟨"18900000002", "189****0002"⟩ State.init.tick after]) :=
  ⟨by decide, rfl, Or.inr rfl,
    run_logs_timeout_and_rethrows envSignInTimeout 1 "18900000002" "pwB"
      ⟨"18900000002", "189****0002"⟩ State.init timedOut (by decide) rfl (Or.inr rfl)⟩

theorem taskStep_signin_failure (env : Env) (i : Nat) (a : Account) (acc : Bool × State)
    (hacc : ∀ j u e, Call.userSign j u (some e) ∈ acc.2.trace →
      acc.1 = true ∧ failureEntry env u e ∈ acc.2.events)
    (j : Nat) (u : String) (e : JsError)
    (hmem : Call.userSign j u (some e) ∈ (taskStep env i a acc).2.trace) :
    (taskStep env i a acc).1 = true ∧ failureEntry env u e ∈ (taskStep env i a acc).2.events := by
  rcases taskStep_cases env i a acc with
    ⟨_, h⟩ | ⟨_, e0, d, h1, _, ht, he⟩ | ⟨_, e0, d, h1, _, ht, he⟩ |
    ⟨_, e0, r, d, h1, _, ht, he⟩ | ⟨_, r, d, h1, _, ht, he⟩
  · rw [h] at hmem ⊢
    exact hacc j u e hmem
  · rw [ht] at hmem
    simp at hmem
    exact ⟨h1, by rw [he]; simp [(hacc j u e hmem).2]⟩
  · rw [ht] at hmem
    simp at hmem
    exact ⟨h1, by rw [he]; simp [(hacc j u e hmem).2]⟩
  · rw [ht] at hmem
    simp at hmem
    refine ⟨h1, ?_⟩
    rw [he]
    rcases hmem with hmem | ⟨_, hu, he0⟩
    · simp [(hacc j u e hmem).2]
    · simp [hu, he0]
  · rw [ht] at hmem
    simp at hmem
    exact ⟨by rw [h1]; exact (hacc j u e hmem).1, by rw [he]; simp [(hacc j u e hmem).2]⟩

theorem reconcileStep_signin_failure (env : Env) (entry : String × Record) (acc : Bool × State)
    (hacc : ∀ j u e, Call.userSign j u (some e) ∈ acc.2.trace →
      acc.1 = true ∧ failureEntry env u e ∈ acc.2.events)
    (j : Nat) (u : String) (e : JsError)
    (hmem : Call.userSign j u (some e) ∈ (reconcileStep env entry acc).2.trace) :
    (reconcileStep env entry acc).1 = true ∧
      failureEntry env u e ∈ (reconcileStep env entry acc).2.events := by
  rcases reconcileStep_cases env entry acc with
    ⟨d, h1, _, ht, he⟩ | ⟨e0, d, h1, _, ht, he⟩ | ⟨e0, d, h1, _, ht, he⟩
  · rw [ht] at hmem
    simp at hmem
    exact ⟨by rw [h1]; exact (hacc j u e hmem).1, by rw [he]; simp [(hacc j u e hmem).2]⟩
  · rw [ht] at hmem
    simp at hmem
    exact ⟨h1, by rw [he]; simp [(hacc j u e hmem).2]⟩
  · rw [ht] at hmem
    simp at hmem
    exact ⟨h1, by rw [he]; simp [(hacc j u e hmem).2]⟩

theorem taskLoop_signin_failure (env : Env) (as : List Account) (i : Nat) (acc : Bool × State)
    (hacc : ∀ j u e, Call.userSign j u (some e) ∈ acc.2.trace →
      acc.1 = true ∧ failureEntry env u e ∈ acc.2.events) :
    ∀ j u e, Call.userSign j u (some e) ∈ (taskLoop env i as acc).2.trace →
      (taskLoop env i as acc).1 = true ∧
        failureEntry env u e ∈ (taskLoop env i as acc).2.events := by
  induction as generalizing i acc with
  | nil => simpa [taskLoop] using hacc
  | cons a rest ih =>
    simp only [taskLoop]
    exact ih (i + 1) _ (taskStep_signin_failure env i a acc hacc)

theorem reconcileLoop_signin_failure (env : Env) (es : List (String × Record))
    (acc : Bool × State)
    (hacc : ∀ j u e, Call.userSign j u (some e) ∈ acc.2.trace →
      acc.1 = true ∧ failureEntry env u e ∈ acc.2.events) :
    ∀ j u e, Call.userSign j u (some e) ∈ (reconcileLoop env es acc).2.trace →
      (reconcileLoop env es acc).1 = true ∧
        failureEntry env u e ∈ (reconcileLoop env es acc).2.events := by
  induction es generalizing acc with
  | nil => simpa [reconcileLoop] using hacc
  | cons a rest ih =>
    simp only [reconcileLoop]
    exact ih _ (reconcileStep_signin_failure env a acc hacc)

theorem jsJoin_mem (sep x : String) (l : List String) (h : x ∈ l) :
    ∃ pre post, jsJoin sep l = pre ++ x ++ post := by
  induction l with
  | nil => simp at h
  | cons y rest ih =>
    cases rest with
    | nil =>
      simp at h
      subst h
      exact ⟨"", "", by simp [jsJoin]⟩
    | cons z rest2 =>
      rcases List.mem_cons.mp h with h | h
      · subst h
        exact ⟨"", sep ++ jsJoin sep (z :: rest2), by simp [jsJoin, String.append_assoc]⟩
      · obtain ⟨pre, post, hj⟩ := ih h
        exact ⟨y ++ sep ++ pre, post, by simp [jsJoin, hj, String.append_assoc]⟩

theorem replayContent_failureLine (env : Env) (u : String) (e : JsError)
    (events : List LogEvent) (h : failureEntry env u e ∈ events) :
    ∃ pre post, replayContent events = pre ++ failureLine env u e ++ post := by
  have hline : failureLine env u e =
      jsJoin "" ((failureEntry env u e).data.map LogArg.toJsString) := by
    simp [failureLine, failureEntry, jsJoin, LogArg.toJsString, String.append_assoc]
  rw [hline]
  exact jsJoin_mem _ _ _ (List.mem_map_of_mem _ h)

/-- C1: for every credential list and every behaviour of the client in which
the sign-in call (`cloudClient.userSign`) of some account `u` fails with an
error `e`, `main` returns `hasError = true` and the entry point calls `push`
exactly once, with the fixed subject and a body that contains that account's
failure log line (the masked identifier and the message of `e`). -/
theorem signin_failure_notifies_once (env : Env) (accounts : List Account) (i : Nat)
    (u : String) (e : JsError)
    (h : Call.userSign i u (some e) ∈ (main env accounts).2.trace) :
    (main env accounts).1 = true ∧
      ∃ body, (entryPoint env accounts).pushes = [("天翼云盘自动签到任务失败", body)] ∧
        ∃ pre post, body = pre ++ failureLine env u e ++ post := by
  have hinv := reconcileLoop_signin_failure env (taskPhase env accounts).2.userSizeInfoMap
    (taskPhase env accounts)
    (taskLoop_signin_failure env accounts 0 (false, State.init) (by simp [State.init]))
    i u e h
  change (main env accounts).1 = true ∧ failureEntry env u e ∈ (main env accounts).2.events
    at hinv
  obtain ⟨pre, post, hc⟩ := replayContent_failureLine env u e _ hinv.2
  refine ⟨hinv.1, env.catLogs (main env accounts).2.events ++
    replayContent (main env accounts).2.events, by simp [entryPoint, hinv.1], ?_⟩
  exact ⟨env.catLogs (main env accounts).2.events ++ pre, post, by
    rw [hc]; simp [String.append_assoc]⟩

/-- Witness of C1: two accounts, A succeeds fully, the sign-in of B times out. -/
theorem signin_failure_notifies_once_witness :
    Call.userSign 1 "18900000002" (some timedOut) ∈ (main envSignInTimeout accountsAB).2.trace ∧
      ((main envSignInTimeout accountsAB).1 = true ∧
        ∃ body, (entryPoint envSignInTimeout accountsAB).pushes =
            [("天翼云盘自动签到任务失败", body)] ∧
          ∃ pre post, body = pre ++ failureLine envSignInTimeout "18900000002" timedOut ++ post) :=
  ⟨by decide, signin_failure_notifies_once envSignInTimeout accountsAB 1 "18900000002" timedOut
    (by decide)⟩

theorem taskStep_hasError_cause (env : Env) (i : Nat) (a : Account) (acc : Bool × State)
    (hacc : acc.1 = true → ∃ c ∈ acc.2.trace, c.failure ≠ none)
    (h : (taskStep env i a acc).1 = true) :
    ∃ c ∈ (taskStep env i a acc).2.trace, c.failure ≠ none := by
  rcases taskStep_cases env i a acc with
    ⟨_, hs⟩ | ⟨_, e0, d, _, _, ht, _⟩ | ⟨_, e0, d, _, _, ht, _⟩ |
    ⟨_, e0, r, d, _, _, ht, _⟩ | ⟨_, r, d, h1, _, ht, _⟩
  · rw [hs] at h ⊢
    exact hacc h
  · exact ⟨.construct i a.userName (some e0), by simp [ht], by simp [Call.failure]⟩
  · exact ⟨.sizeBefore i a.userName (some e0), by simp [ht], by simp [Call.failure]⟩
  · exact ⟨.userSign i a.userName (some e0), by simp [ht], by simp [Call.failure]⟩
  · obtain ⟨c, hc, hf⟩ := hacc (by rw [← h1]; exact h)
    exact ⟨c, by simp [ht, hc], hf⟩

theorem reconcileStep_hasError_cause (env : Env) (entry : String × Record)
    (acc : Bool × State)
    (hacc : acc.1 = true → ∃ c ∈ acc.2.trace, c.failure ≠ none)
    (h : (reconcileStep env entry acc).1 = true) :
    ∃ c ∈ (reconcileStep env entry acc).2.trace, c.failure ≠ none := by
  rcases reconcileStep_cases env entry acc with
    ⟨d, h1, _, ht, _⟩ | ⟨e0, d, _, _, ht, _⟩ | ⟨e0, d, _, _, ht, _⟩
  · obtain ⟨c, hc, hf⟩ := hacc (by rw [← h1]; exact h)
    exact ⟨c, by simp [ht, hc], hf⟩
  · exact ⟨.sizeAfter entry.1 (some e0), by simp [ht], by simp [Call.failure]⟩
  · exact ⟨.formatted entry.1 (some e0), by simp [ht], by simp [Call.failure]⟩

theorem taskLoop_hasError_cause (env : Env) (as : List Account) (i : Nat) (acc : Bool × State)
    (hacc : acc.1 = true → ∃ c ∈ acc.2.trace, c.failure ≠ none)
    (h : (taskLoop env i as acc).1 = true) :
    ∃ c ∈ (taskLoop env i as acc).2.trace, c.failure ≠ none := by
  induction as generalizing i acc with
  | nil => exact hacc h
  | cons a rest ih => exact ih (i + 1) _ (taskStep_hasError_cause env i a acc hacc) h

theorem reconcileLoop_hasError_cause (env : Env) (es : List (String × Record))
    (acc : Bool × State)
    (hacc : acc.1 = true → ∃ c ∈ acc.2.trace, c.failure ≠ none)
    (h : (reconcileLoop env es acc).1 = true) :
    ∃ c ∈ (reconcileLoop env es acc).2.trace, c.failure ≠ none := by
  induction es generalizing acc with
  | nil => exact hacc h
  | cons a rest ih => exact ih _ (reconcileStep_hasError_cause env a acc hacc) h

theorem mem_mapKeys_mapSet (m : List (String × Record)) (u k : String) (r : Record) :
    k ∈ mapKeys (mapSet m u r) ↔ k = u ∨ k ∈ mapKeys m := by
  induction m with
  | nil => simp [mapSet, mapKeys]
  | cons kv rest ih =>
    obtain ⟨k0, v0⟩ := kv
    unfold mapSet
    by_cases h : k0 = u
    · subst h
      simp [mapKeys]
    · simp only [h, if_false]
      simp only [mapKeys, List.map_cons, List.mem_cons] at ih ⊢
      rw [ih]
      tauto

/-- The invariant of `userSizeInfoMap` carried along the run: every key was
written by the task of a list entry with that identifier whose client
construction and pre-task capacity query succeeded. -/
theorem taskStep_keys (env : Env) (accounts : List Account) (i : Nat) (a : Account)
    (acc : Bool × State) (hidx : accounts[i]? = some a)
    (hacc : ∀ k ∈ mapKeys acc.2.userSizeInfoMap, ∃ j b, accounts[j]? = some b ∧
      b.userName = k ∧ b.usable = true ∧ Call.construct j k none ∈ acc.2.trace ∧
      Call.sizeBefore j k none ∈ acc.2.trace) :
    ∀ k ∈ mapKeys (taskStep env i a acc).2.userSizeInfoMap, ∃ j b, accounts[j]? = some b ∧
      b.userName = k ∧ b.usable = true ∧
      Call.construct j k none ∈ (taskStep env i a acc).2.trace ∧
      Call.sizeBefore j k none ∈ (taskStep env i a acc).2.trace := by
  intro k hk
  rcases taskStep_cases env i a acc with
    ⟨_, hs⟩ | ⟨_, e0, d, _, hm, ht, _⟩ | ⟨_, e0, d, _, hm, ht, _⟩ |
    ⟨hu, e0, r, d, _, hm, ht, _⟩ | ⟨hu, r, d, _, hm, ht, _⟩
  · rw [hs] at hk ⊢
    exact hacc k hk
  · rw [hm] at hk
    obtain ⟨j, b, h1, h2, h3, h4, h5⟩ := hacc k hk
    exact ⟨j, b, h1, h2, h3, by simp [ht, h4], by simp [ht, h5]⟩
  · rw [hm] at hk
    obtain ⟨j, b, h1, h2, h3, h4, h5⟩ := hacc k hk
    exact ⟨j, b, h1, h2, h3, by simp [ht, h4], by simp [ht, h5]⟩
  · rw [hm, mem_mapKeys_mapSet] at hk
    rcases hk with hk | hk
    · subst hk
      exact ⟨i, a, hidx, rfl, hu, by simp [ht], by simp [ht]⟩
    · obtain ⟨j, b, h1, h2, h3, h4, h5⟩ := hacc k hk
      exact ⟨j, b, h1, h2, h3, by simp [ht, h4], by simp [ht, h5]⟩
  · rw [hm, mem_mapKeys_mapSet] at hk
    rcases hk with hk | hk
    · subst hk
      exact ⟨i, a, hidx, rfl, hu, by simp [ht], by simp [ht]⟩
    · obtain ⟨j, b, h1, h2, h3, h4, h5⟩ := hacc k hk
      exact ⟨j, b, h1, h2, h3, by simp [ht, h4], by simp [ht, h5]⟩

theorem reconcileStep_keys (env : Env) (accounts : List Account) (entry : String × Record)
    (acc : Bool × State)
    (hacc : ∀ k ∈ mapKeys acc.2.userSizeInfoMap, ∃ j b, accounts[j]? = some b ∧
      b.userName = k ∧ b.usable = true ∧ Call.construct j k none ∈ acc.2.trace ∧
      Call.sizeBefore j k none ∈ acc.2.trace) :
    ∀ k ∈ mapKeys (reconcileStep env entry acc).2.userSizeInfoMap, ∃ j b,
      accounts[j]? = some b ∧ b.userName = k ∧ b.usable = true ∧
      Call.construct j k none ∈ (reconcileStep env entry acc).2.trace ∧
      Call.sizeBefore j k none ∈ (reconcileStep env entry acc).2.trace := by
  intro k hk
  rcases reconcileStep_cases env entry acc with
    ⟨d, _, hm, ht, _⟩ | ⟨e0, d, _, hm, ht, _⟩ | ⟨e0, d, _, hm, ht, _⟩
  all_goals
    rw [hm] at hk
    obtain ⟨j, b, h1, h2, h3, h4, h5⟩ := hacc k hk
    exact ⟨j, b, h1, h2, h3, by simp [ht, h4], by simp [ht, h5]⟩

theorem taskLoop_keys (env : Env) (accounts : List Account) (as : List Account) (i : Nat)
    (acc : Bool × State) (hidx : ∀ n b, as[n]? = some b → accounts[i + n]? = some b)
    (hacc : ∀ k ∈ mapKeys acc.2.userSizeInfoMap, ∃ j b, accounts[j]? = some b ∧
      b.userName = k ∧ b.usable = true ∧ Call.construct j k none ∈ acc.2.trace ∧
      Call.sizeBefore j k none ∈ acc.2.trace) :
    ∀ k ∈ mapKeys (taskLoop env i as acc).2.userSizeInfoMap, ∃ j b, accounts[j]? = some b ∧
      b.userName = k ∧ b.usable = true ∧
      Call.construct j k none ∈ (taskLoop env i as acc).2.trace ∧
      Call.sizeBefore j k none ∈ (taskLoop env i as acc).2.trace := by
  induction as generalizing i acc with
  | nil => simpa [taskLoop] using hacc
  | cons a rest ih =>
    simp only [taskLoop]
    apply ih (i + 1)
    · intro n b hn
      have := hidx (n + 1) b (by simpa using hn)
      rw [← this]
      congr 1
      omega
    · exact taskStep_keys env accounts i a acc (by simpa using hidx 0 a (by simp)) hacc

theorem reconcileLoop_keys (env : Env) (accounts : List Account)
    (es : List (String × Record)) (acc : Bool × State)
    (hacc : ∀ k ∈ mapKeys acc.2.userSizeInfoMap, ∃ j b, accounts[j]? = some b ∧
      b.userName = k ∧ b.usable = true ∧ Call.construct j k none ∈ acc.2.trace ∧
      Call.sizeBefore j k none ∈ acc.2.trace) :
    ∀ k ∈ mapKeys (reconcileLoop env es acc).2.userSizeInfoMap, ∃ j b,
      accounts[j]? = some b ∧ b.userName = k ∧ b.usable = true ∧
      Call.construct j k none ∈ (reconcileLoop env es acc).2.trace ∧
      Call.sizeBefore j k none ∈ (reconcileLoop env es acc).2.trace := by
  induction es generalizing acc with
  | nil => simpa [reconcileLoop] using hacc
  | cons a rest ih =>
    simp only [reconcileLoop]
    exact ih _ (reconcileStep_keys env accounts a acc hacc)

theorem reconcileLoop_map (env : Env) (es : List (String × Record)) (acc : Bool × State) :
    (reconcileLoop env es acc).2.userSizeInfoMap = acc.2.userSizeInfoMap := by
  induction es generalizing acc with
  | nil => simp [reconcileLoop]
  | cons a rest ih =>
    simp only [reconcileLoop]
    rw [ih]
    rcases reconcileStep_cases env a acc with ⟨_, _, h, _⟩ | ⟨_, _, _, h, _⟩ | ⟨_, _, _, h, _⟩
    · exact h
    · exact h
    · exact h

theorem taskPhase_keys (env : Env) (accounts : List Account) :
    ∀ k ∈ mapKeys (taskPhase env accounts).2.userSizeInfoMap, ∃ j b, accounts[j]? = some b ∧
      b.userName = k ∧ b.usable = true ∧
      Call.construct j k none ∈ (taskPhase env accounts).2.trace ∧
      Call.sizeBefore j k none ∈ (taskPhase env accounts).2.trace :=
  taskLoop_keys env accounts accounts 0 (false, State.init) (by simp)
    (by simp [State.init, mapKeys])

theorem main_requeried_eq_keys (env : Env) (accounts : List Account) :
    requeriedKeys (main env accounts).2.trace = mapKeys (main env accounts).2.userSizeInfoMap := by
  have h1 : (main env accounts).2.userSizeInfoMap = (taskPhase env accounts).2.userSizeInfoMap :=
    reconcileLoop_map env _ _
  rw [h1]
  unfold main
  rw [reconcileLoop_requeried]
  unfold taskPhase
  rw [taskLoop_requeried]
  simp [State.init, requeriedKeys, mapKeys]

theorem taskStep_index_lt (env : Env) (i : Nat) (a : Account) (acc : Bool × State)
    (hacc : ∀ c ∈ acc.2.trace, ∀ j, c.index = some j → j < i) :
    ∀ c ∈ (taskStep env i a acc).2.trace, ∀ j, c.index = some j → j < i + 1 := by
  intro c hc j hj
  rcases taskStep_cases env i a acc with
    ⟨_, hs⟩ | ⟨_, e0, d, _, _, ht, _⟩ | ⟨_, e0, d, _, _, ht, _⟩ |
    ⟨_, e0, r, d, _, _, ht, _⟩ | ⟨_, r, d, _, _, ht, _⟩
  · rw [hs] at hc
    exact Nat.lt_succ_of_lt (hacc c hc j hj)
  all_goals
    rw [ht] at hc
    rcases List.mem_append.mp hc with hc | hc
    · exact Nat.lt_succ_of_lt (hacc c hc j hj)
    · have hi : c.index = some i := by
        simp only [List.mem_cons, List.mem_singleton, List.not_mem_nil, or_false] at hc
        casesm* _ ∨ _ <;> subst_vars <;> rfl
      rw [hi] at hj
      simp only [Option.some.injEq] at hj
      omega

theorem failedBefore_iff (trace : List Call) (i : Nat) :
    failedBefore trace i = true ↔
      ∃ u e, Call.construct i u (some e) ∈ trace ∨ Call.sizeBefore i u (some e) ∈ trace := by
  unfold failedBefore
  rw [List.any_eq_true]
  constructor
  · rintro ⟨c, hc, h⟩
    cases c with
    | start j u p => simp [Call.failsBefore] at h
    | construct j u f =>
      cases f with
      | none => simp [Call.failsBefore] at h
      | some e =>
        simp [Call.failsBefore] at h
        subst h
        exact ⟨u, e, Or.inl hc⟩
    | sizeBefore j u f =>
      cases f with
      | none => simp [Call.failsBefore] at h
      | some e =>
        simp [Call.failsBefore] at h
        subst h
        exact ⟨u, e, Or.inr hc⟩
    | userSign j u f => simp [Call.failsBefore] at h
    | sizeAfter u f => simp [Call.failsBefore] at h
    | formatted u f => simp [Call.failsBefore] at h
  · rintro ⟨u, e, h | h⟩
    · exact ⟨_, h, by simp [Call.failsBefore]⟩
    · exact ⟨_, h, by simp [Call.failsBefore]⟩

theorem taskStep_exclusive (env : Env) (i : Nat) (a : Account) (acc : Bool × State)
    (hlt : ∀ c ∈ acc.2.trace, ∀ j, c.index = some j → j < i)
    (hex : ∀ j, failedBefore acc.2.trace j = true →
      ∀ u, Call.sizeBefore j u none ∉ acc.2.trace) :
    ∀ j, failedBefore (taskStep env i a acc).2.trace j = true →
      ∀ u, Call.sizeBefore j u none ∉ (taskStep env i a acc).2.trace := by
  intro j hf u hs
  obtain ⟨u0, e, hf⟩ := (failedBefore_iff _ _).mp hf
  have hold1 : Call.construct j u0 (some e) ∈ acc.2.trace → j < i :=
    fun h => hlt _ h j rfl
  have hold2 : Call.sizeBefore j u0 (some e) ∈ acc.2.trace → j < i :=
    fun h => hlt _ h j rfl
  have hold3 : Call.sizeBefore j u none ∈ acc.2.trace → j < i :=
    fun h => hlt _ h j rfl
  have hboth : (Call.construct j u0 (some e) ∈ acc.2.trace ∨
      Call.sizeBefore j u0 (some e) ∈ acc.2.trace) →
      Call.sizeBefore j u none ∈ acc.2.trace → False :=
    fun h1 h2 => hex j ((failedBefore_iff _ _).mpr ⟨u0, e, h1⟩) u h2
  rcases taskStep_cases env i a acc with
    ⟨_, hs0⟩ | ⟨_, e0, d, _, _, ht, _⟩ | ⟨_, e0, d, _, _, ht, _⟩ |
    ⟨_, e0, r, d, _, _, ht, _⟩ | ⟨_, r, d, _, _, ht, _⟩
  · rw [hs0] at hf hs
    exact hboth hf hs
  all_goals
    rw [ht] at hf hs
    simp at hf hs
    casesm* _ ∨ _, _ ∧ _ <;>
      first
        | exact hboth (Or.inl ‹_›) ‹_›
        | exact hboth (Or.inr ‹_›) ‹_›
        | exact absurd (hold1 ‹_›) (by omega)
        | exact absurd (hold2 ‹_›) (by omega)
        | exact absurd (hold3 ‹_›) (by omega)

theorem taskLoop_exclusive (env : Env) (as : List Account) (i : Nat) (acc : Bool × State)
    (hlt : ∀ c ∈ acc.2.trace, ∀ j, c.index = some j → j < i)
    (hex : ∀ j, failedBefore acc.2.trace j = true →
      ∀ u, Call.sizeBefore j u none ∉ acc.2.trace) :
    ∀ j, failedBefore (taskLoop env i as acc).2.trace j = true →
      ∀ u, Call.sizeBefore j u none ∉ (taskLoop env i as acc).2.trace := by
  induction as generalizing i acc with
  | nil => simpa [taskLoop] using hex
  | cons a rest ih =>
    simp only [taskLoop]
    exact ih (i + 1) _ (taskStep_index_lt env i a acc hlt) (taskStep_exclusive env i a acc hlt hex)

theorem taskPhase_exclusive (env : Env) (accounts : List Account) :
    ∀ j, failedBefore (taskPhase env accounts).2.trace j = true →
      ∀ u, Call.sizeBefore j u none ∉ (taskPhase env accounts).2.trace :=
  taskLoop_exclusive env accounts 0 (false, State.init) (by simp [State.init])
    (by simp [State.init, failedBefore])

/-- C6, as stated, fails for a list that repeats an identifier: the second
entry of `accountsRepeated` fails at its pre-task capacity query, yet its
identifier has an entry in `userSizeInfoMap` at the end of the task-execution
phase (written by the first entry) and is reconciled. -/
theorem repeated_identifier_keeps_entry :
    Call.sizeBefore 1 "18900000001" (some rejected) ∈
        (taskPhase envWrongPassword accountsRepeated).2.trace ∧
      "18900000001" ∈ mapKeys (taskPhase envWrongPassword accountsRepeated).2.userSizeInfoMap ∧
      "18900000001" ∈ requeriedKeys (main envWrongPassword accountsRepeated).2.trace := by
  decide

/-- C6, amended: at the end of the task-execution phase, for every credential
list, every key of `userSizeInfoMap` is the identifier of a list entry whose
pre-task capacity query succeeded; a list entry whose task fails before that
point (client construction or the pre-task capacity query) has no entry in the
map and is not reconciled, provided no other list entry repeats its
identifier; and in general an identifier none of whose list entries passed the
pre-task capacity query has no entry in the map and is not reconciled.  The
state after a prefix of the first loop is `taskPhase` of that prefix, so this
holds after every iteration. -/
theorem map_keys_passed_pretask_query (env : Env) (accounts : List Account) :
    (∀ k ∈ mapKeys (taskPhase env accounts).2.userSizeInfoMap, ∃ j b,
      accounts[j]? = some b ∧ b.userName = k ∧
      Call.sizeBefore j k none ∈ (taskPhase env accounts).2.trace) ∧
    (∀ i a, accounts[i]? = some a → failedBefore (taskPhase env accounts).2.trace i = true →
      (∀ j b, accounts[j]? = some b → b.userName = a.userName → j = i) →
      a.userName ∉ mapKeys (taskPhase env accounts).2.userSizeInfoMap ∧
      a.userName ∉ requeriedKeys (main env accounts).2.trace) ∧
    (∀ u, (∀ j, Call.sizeBefore j u none ∉ (taskPhase env accounts).2.trace) →
      u ∉ mapKeys (taskPhase env accounts).2.userSizeInfoMap ∧
      u ∉ requeriedKeys (main env accounts).2.trace) := by
  have hA := taskPhase_keys env accounts
  have hmap : (main env accounts).2.userSizeInfoMap =
      (taskPhase env accounts).2.userSizeInfoMap := reconcileLoop_map env _ _
  have hB : ∀ u, (∀ j, Call.sizeBefore j u none ∉ (taskPhase env accounts).2.trace) →
      u ∉ mapKeys (taskPhase env accounts).2.userSizeInfoMap ∧
      u ∉ requeriedKeys (main env accounts).2.trace := by
    intro u hu
    have hnot : u ∉ mapKeys (taskPhase env accounts).2.userSizeInfoMap := by
      intro hk
      obtain ⟨j, _, _, _, _, _, h5⟩ := hA u hk
      exact hu j h5
    refine ⟨hnot, ?_⟩
    rw [main_requeried_eq_keys, hmap]
    exact hnot
  refine ⟨?_, ?_, hB⟩
  · intro k hk
    obtain ⟨j, b, h1, h2, _, _, h5⟩ := hA k hk
    exact ⟨j, b, h1, h2, h5⟩
  · intro i a hi hfail huniq
    have hnot : a.userName ∉ mapKeys (taskPhase env accounts).2.userSizeInfoMap := by
      intro hk
      obtain ⟨j, b, h1, h2, _, _, h5⟩ := hA a.userName hk
      have hji : j = i := huniq j b h1 h2
      subst hji
      exact taskPhase_exclusive env accounts j hfail a.userName h5
    refine ⟨hnot, ?_⟩
    rw [main_requeried_eq_keys, hmap]
    exact hnot

/-- Witness of the amended C6: in the run of accounts A and B where the client
construction of B throws, B has no entry in the map and is not reconciled. -/
theorem map_keys_passed_pretask_query_witness :
    failedBefore (taskPhase envConstructFails accountsAB).2.trace 1 = true ∧
      "18900000002" ∉ mapKeys (taskPhase envConstructFails accountsAB).2.userSizeInfoMap ∧
      "18900000002" ∉ requeriedKeys (main envConstructFails accountsAB).2.trace := by
  have hf : failedBefore (taskPhase envConstructFails accountsAB).2.trace 1 = true := by
    decide
  refine ⟨hf, (map_keys_passed_pretask_query envConstructFails accountsAB).2.1 1
    { userName := "18900000002", password := "pwB" } rfl hf ?_⟩
  intro j b hj hb
  rcases j with _ | _ | j
  · simp [accountsAB] at hj
    subst hj
    simp at hb
  · rfl
  · simp [accountsAB] at hj

/-- C7, as stated, fails: in the run where the sign-in of account B times out,
B has an entry in `userSizeInfoMap` although its sign-in call failed and it
has no successful sign-in call. -/
theorem record_exists_without_signin :
    "18900000002" ∈ mapKeys (main envSignInTimeout accountsAB).2.userSizeInfoMap ∧
      Call.userSign 1 "18900000002" (some timedOut) ∈
        (main envSignInTimeout accountsAB).2.trace ∧
      "18900000002" ∉ signedIn (main envSignInTimeout accountsAB).2.trace := by
  decide

/-- C7, amended: a record is created for an account only if its client
construction and its initial capacity query succeed (the record is written
before the sign-in call is made).  For every run, every identifier that has an
entry in `userSizeInfoMap` belongs to a list entry with usable credentials
whose `new CloudClient` and whose pre-task `getUserSizeInfo` succeeded. -/
theorem record_requires_pretask_query (env : Env) (accounts : List Account) :
    ∀ k ∈ mapKeys (main env accounts).2.userSizeInfoMap, ∃ j b, accounts[j]? = some b ∧
      b.userName = k ∧ b.usable = true ∧
      Call.construct j k none ∈ (main env accounts).2.trace ∧
      Call.sizeBefore j k none ∈ (main env accounts).2.trace := by
  intro k hk
  exact reconcileLoop_keys env accounts (taskPhase env accounts).2.userSizeInfoMap
    (taskPhase env accounts) (taskPhase_keys env accounts) k hk

/-- Witness of the amended C7: the entry of account B in the run where its
sign-in times out. -/
theorem record_requires_pretask_query_witness :
    "18900000002" ∈ mapKeys (main envSignInTimeout accountsAB).2.userSizeInfoMap ∧
      ∃ j b, accountsAB[j]? = some b ∧ b.userName = "18900000002" ∧ b.usable = true ∧
        Call.construct j "18900000002" none ∈ (main envSignInTimeout accountsAB).2.trace ∧
        Call.sizeBefore j "18900000002" none ∈ (main envSignInTimeout accountsAB).2.trace :=
  ⟨by decide, record_requires_pretask_query envSignInTimeout accountsAB "18900000002"
    (by decide)⟩

theorem reconcileLoop_mem_indexed (env : Env) (es : List (String × Record))
    (acc : Bool × State) (c : Call) (hc : c.index ≠ none) :
    c ∈ (reconcileLoop env es acc).2.trace ↔ c ∈ acc.2.trace := by
  induction es generalizing acc with
  | nil => simp [reconcileLoop]
  | cons a rest ih =>
    simp only [reconcileLoop]
    rw [ih]
    rcases reconcileStep_cases env a acc with
      ⟨_, _, _, h, _⟩ | ⟨_, _, _, _, h, _⟩ | ⟨_, _, _, _, h, _⟩
    all_goals
      rw [h]
      simp only [List.mem_append, List.mem_cons, List.mem_singleton, List.not_mem_nil, or_false]
      constructor
      · intro hm
        rcases hm with hm | hm
        · exact hm
        · exfalso
          first
            | (casesm* _ ∨ _ <;> subst_vars <;> simp [Call.index] at hc)
            | (subst_vars; simp [Call.index] at hc)
      · exact Or.inl

theorem taskStep_constructed (env : Env) (accounts : List Account) (i : Nat) (a : Account)
    (acc : Bool × State) (hidx : accounts[i]? = some a)
    (hacc : ∀ j u f, Call.construct j u f ∈ acc.2.trace →
      ∃ b, accounts[j]? = some b ∧ b.userName = u ∧ b.usable = true) :
    ∀ j u f, Call.construct j u f ∈ (taskStep env i a acc).2.trace →
      ∃ b, accounts[j]? = some b ∧ b.userName = u ∧ b.usable = true := by
  intro j u f hm
  rcases taskStep_cases env i a acc with
    ⟨_, hs⟩ | ⟨hu, e0, d, _, _, ht, _⟩ | ⟨hu, e0, d, _, _, ht, _⟩ |
    ⟨hu, e0, r, d, _, _, ht, _⟩ | ⟨hu, r, d, _, _, ht, _⟩
  · rw [hs] at hm
    exact hacc j u f hm
  all_goals
    rw [ht] at hm
    simp at hm
    rcases hm with hm | ⟨hj, hu2, _⟩
    · exact hacc j u f hm
    · subst hj hu2
      exact ⟨a, hidx, rfl, hu⟩

theorem taskLoop_constructed (env : Env) (accounts : List Account) (as : List Account)
    (i : Nat) (acc : Bool × State) (hidx : ∀ n b, as[n]? = some b → accounts[i + n]? = some b)
    (hacc : ∀ j u f, Call.construct j u f ∈ acc.2.trace →
      ∃ b, accounts[j]? = some b ∧ b.userName = u ∧ b.usable = true) :
    ∀ j u f, Call.construct j u f ∈ (taskLoop env i as acc).2.trace →
      ∃ b, accounts[j]? = some b ∧ b.userName = u ∧ b.usable = true := by
  induction as generalizing i acc with
  | nil => simpa [taskLoop] using hacc
  | cons a rest ih =>
    simp only [taskLoop]
    apply ih (i + 1)
    · intro n b hn
      have := hidx (n + 1) b (by simpa using hn)
      rw [← this]
      congr 1
      omega
    · exact taskStep_constructed env accounts i a acc (by simpa using hidx 0 a (by simp)) hacc

theorem taskStep_construct_exclusive (env : Env) (i : Nat) (a : Account) (acc : Bool × State)
    (hlt : ∀ c ∈ acc.2.trace, ∀ j, c.index = some j → j < i)
    (hex : ∀ j u e, Call.construct j u (some e) ∈ acc.2.trace →
      ∀ v, Call.userSign j v none ∉ acc.2.trace) :
    ∀ j u e, Call.construct j u (some e) ∈ (taskStep env i a acc).2.trace →
      ∀ v, Call.userSign j v none ∉ (taskStep env i a acc).2.trace := by
  intro j u e hf v hs
  have hold1 : Call.construct j u (some e) ∈ acc.2.trace → j < i :=
    fun h => hlt _ h j rfl
  have hold2 : Call.userSign j v none ∈ acc.2.trace → j < i :=
    fun h => hlt _ h j rfl
  have hboth : Call.construct j u (some e) ∈ acc.2.trace →
      Call.userSign j v none ∈ acc.2.trace → False :=
    fun h1 h2 => hex j u e h1 v h2
  rcases taskStep_cases env i a acc with
    ⟨_, hs0⟩ | ⟨_, e0, d, _, _, ht, _⟩ | ⟨_, e0, d, _, _, ht, _⟩ |
    ⟨_, e0, r, d, _, _, ht, _⟩ | ⟨_, r, d, _, _, ht, _⟩
  · rw [hs0] at hf hs
    exact hboth hf hs
  all_goals
    rw [ht] at hf hs
    simp at hf hs
    first
      | exact hboth ‹_› ‹_›
      | (casesm* _ ∨ _, _ ∧ _ <;>
          first
            | exact hboth ‹_› ‹_›
            | exact absurd (hold1 ‹_›) (by omega)
            | exact absurd (hold2 ‹_›) (by omega))

theorem taskLoop_construct_exclusive (env : Env) (as : List Account) (i : Nat)
    (acc : Bool × State)
    (hlt : ∀ c ∈ acc.2.trace, ∀ j, c.index = some j → j < i)
    (hex : ∀ j u e, Call.construct j u (some e) ∈ acc.2.trace →
      ∀ v, Call.userSign j v none ∉ acc.2.trace) :
    ∀ j u e, Call.construct j u (some e) ∈ (taskLoop env i as acc).2.trace →
      ∀ v, Call.userSign j v none ∉ (taskLoop env i as acc).2.trace := by
  induction as generalizing i acc with
  | nil => simpa [taskLoop] using hex
  | cons a rest ih =>
    simp only [taskLoop]
    exact ih (i + 1) _ (taskStep_index_lt env i a acc hlt)
      (taskStep_construct_exclusive env i a acc hlt hex)

/-- In a run of `main`, an entry whose client construction threw belongs to a
list entry with usable credentials and has no successful sign-in call. -/
theorem main_construct_failure (env : Env) (accounts : List Account) (j : Nat) (u : String)
    (e : JsError) (h : Call.construct j u (some e) ∈ (main env accounts).2.trace) :
    ∃ b, accounts[j]? = some b ∧ b.userName = u ∧ b.usable = true ∧
      Call.userSign j u none ∉ (main env accounts).2.trace := by
  have h1 : Call.construct j u (some e) ∈ (taskPhase env accounts).2.trace :=
    (reconcileLoop_mem_indexed env _ _ _ (by simp [Call.index])).mp h
  obtain ⟨b, hb1, hb2, hb3⟩ := taskLoop_constructed env accounts accounts 0
    (false, State.init) (by simp) (by simp [State.init]) j u (some e) h1
  refine ⟨b, hb1, hb2, hb3, ?_⟩
  intro hs
  have h2 : Call.userSign j u none ∈ (taskPhase env accounts).2.trace :=
    (reconcileLoop_mem_indexed env _ _ _ (by simp [Call.index])).mp hs
  exact taskLoop_construct_exclusive env accounts 0 (false, State.init)
    (by simp [State.init]) (by simp [State.init]) j u e h1 u h2

/-- C2, as stated, fails: in the run of accounts A and B with
`envUnreadableRequery`, both sign-in calls are made and succeed and every
capacity query (two pre-task queries, two re-queries) resolves, but the answer
of the re-query for B lacks a capacity block, so computing the capacity line
throws inside the `try` of the reconciliation loop: `main` returns
`hasError = true` and the entry point calls `push` once. -/
theorem unreadable_answer_sets_hasError :
    signedIn (main envUnreadableRequery accountsAB).2.trace =
        ["18900000001", "18900000002"] ∧
      requeriedKeys (main envUnreadableRequery accountsAB).2.trace =
        ["18900000001", "18900000002"] ∧
      (∀ c ∈ (main envUnreadableRequery accountsAB).2.trace,
        c.isSignInOrQuery = true → c.failure = none) ∧
      (main envUnreadableRequery accountsAB).1 = true ∧
      (entryPoint envUnreadableRequery accountsAB).pushes.length = 1 := by
  decide

/-- C2, amended: for every credential list, if the sign-in call of every
account with usable credentials is made and succeeds, every capacity query
(the pre-task query in `run` and the re-query in the reconciliation loop)
succeeds, and the reconciliation loop can read the capacity blocks of every
answer it uses, then `main` returns `hasError = false` and the entry point never
calls `push`; it writes the local confirmation line instead. -/
theorem all_calls_succeed_no_notification (env : Env) (accounts : List Account)
    (hsign : ∀ j a, accounts[j]? = some a → a.usable = true →
      Call.userSign j a.userName none ∈ (main env accounts).2.trace)
    (hcalls : ∀ c ∈ (main env accounts).2.trace, c.isSignInOrQuery = true → c.failure = none)
    (hread : ∀ c ∈ (main env accounts).2.trace, c.isFormatted = true → c.failure = none) :
    (main env accounts).1 = false ∧
      entryPoint env accounts =
        { pushes := [], console := ["所有任务执行成功，不发送通知"] } := by
  have hfalse : (main env accounts).1 = false := by
    by_contra hne
    have htrue : (main env accounts).1 = true := by simpa using hne
    obtain ⟨c, hc, hf⟩ := reconcileLoop_hasError_cause env
      (taskPhase env accounts).2.userSizeInfoMap (taskPhase env accounts)
      (taskLoop_hasError_cause env accounts 0 (false, State.init) (by simp)) htrue
    change c ∈ (main env accounts).2.trace at hc
    cases c with
    | start j u p => exact hf rfl
    | construct j u f =>
      cases f with
      | none => exact hf rfl
      | some e =>
        obtain ⟨b, hb1, hb2, hb3, hno⟩ := main_construct_failure env accounts j u e hc
        have := hsign j b hb1 hb3
        rw [hb2] at this
        exact hno this
    | sizeBefore j u f => exact hf (hcalls _ hc rfl)
    | userSign j u f => exact hf (hcalls _ hc rfl)
    | sizeAfter u f => exact hf (hcalls _ hc rfl)
    | formatted u f => exact hf (hread _ hc rfl)
  exact ⟨hfalse, by simp [entryPoint, hfalse]⟩

/-- Witness of the amended C2: accounts A and B with a client that never fails
and whose answers carry both capacity blocks. -/
theorem all_calls_succeed_no_notification_witness :
    (∀ j a, accountsAB[j]? = some a → a.usable = true →
        Call.userSign j a.userName none ∈ (main envGrown accountsAB).2.trace) ∧
      (∀ c ∈ (main envGrown accountsAB).2.trace, c.isSignInOrQuery = true → c.failure = none) ∧
      (∀ c ∈ (main envGrown accountsAB).2.trace, c.isFormatted = true → c.failure = none) ∧
      ((main envGrown accountsAB).1 = false ∧
        entryPoint envGrown accountsAB =
          { pushes := [], console := ["所有任务执行成功，不发送通知"] }) := by
  have hsign : ∀ j a, accountsAB[j]? = some a → a.usable = true →
      Call.userSign j a.userName none ∈ (main envGrown accountsAB).2.trace := by
    intro j a hj _
    rcases j with _ | _ | j
    · simp [accountsAB] at hj
      subst hj
      decide
    · simp [accountsAB] at hj
      subst hj
      decide
    · simp [accountsAB] at hj
  exact ⟨hsign, by decide, by decide,
    all_calls_succeed_no_notification envGrown accountsAB hsign (by decide) (by decide)⟩

end Cloud189Checkin
